import Mathlib

/-!
Shallow embedding of the pooling-forward operation cache from
`dnn/primitives/prim_mgr/pooling_fwd_factory.cc`: a memoizing factory that
maps a string cache key, derived from a pooling parameter signature, to a
previously constructed operation handle.  The key-derivation code of
`get_pooling2d_fwd` / `set_pooling2d_fwd` is embedded directly from the
source file; the helper serializers (`int_to_string`, `dims_to_string`) and
the base-class cache table (`OpFactory::get_op` / `set_op`) are declared in
headers that are not part of this fragment and are modelled from the spec.
-/

namespace PoolingFwdCache

/-- The `#define POOLING2D_FWD_PREFIX "pooling2d_fwd_"` constant from
`pooling_fwd_factory.cc`. -/
def POOLING2D_FWD_PREFIX : String := "pooling2d_fwd_"

/-- Modelled from the spec: `int_to_string` is declared outside this fragment;
per the spec, each signature value is serialized as its decimal string. -/
def int_to_string (i : Int) : String := toString i

/-- Modelled from the spec: `dims_to_string` is declared outside this fragment;
per the spec, a dimension list is flattened in order, each entry serialized as
its decimal string, with no delimiters inserted between entries. -/
def dims_to_string : List Int → String
  | [] => ""
  | d :: ds => int_to_string d ++ dims_to_string ds

/-- An operation handle `Op<T>*`: an opaque heap object for element type `T`.
The `id` stands for the pointer identity; the element type is a phantom
parameter, as in the C++ template. -/
structure Op (T : Type) where
  id : Nat
deriving DecidableEq

/-- Modelled from the spec: the base-class cache table of `OpFactory<T>`
(declared in `op_factory.h`, outside this fragment) is a mapping from string
cache keys to operation handles, with at most one entry per key. -/
structure OpFactory (T : Type) where
  map : String → Option (Op T)

/-- A freshly constructed factory: its cache table has no entries
(`Pooling2DFwdFactory<T>::Pooling2DFwdFactory()` initializes no state). -/
def OpFactory.empty (T : Type) : OpFactory T := ⟨fun _ => none⟩

/-- Modelled from the spec: `OpFactory<T>::get_op(key)` is declared outside
this fragment; per the spec it looks the key up in the cache table and
returns the stored handle if present, otherwise a not-found result, with no
side effects. -/
def OpFactory.get_op {T : Type} (f : OpFactory T) (key : String) : Option (Op T) :=
  f.map key

/-- Modelled from the spec: `OpFactory<T>::set_op(key, op)` is declared
outside this fragment; per the spec it inserts `(key, op)` into the cache
table, keeping at most one entry per key, so a pre-existing entry under the
same key is overwritten by the explicit `set`. -/
def OpFactory.set_op {T : Type} (f : OpFactory T) (key : String) (op : Op T) :
    OpFactory T :=
  ⟨fun k => if k = key then some op else f.map k⟩

/-- The pooling parameter signature: the argument list shared by
`get_pooling2d_fwd` and `set_pooling2d_fwd` (memory dims are lists of ints,
every other field an int; `alg_kind` is the numeric value of the
`mkldnn::algorithm` enum). -/
structure PoolingSig where
  src_d : List Int
  dst_d : List Int
  ker_h : Int
  ker_w : Int
  sy : Int
  sx : Int
  pad_lh : Int
  pad_lw : Int
  pad_rh : Int
  pad_rw : Int
  alg_kind : Int
deriving DecidableEq

/-- The cache key built by `Pooling2DFwdFactory<T>::get_pooling2d_fwd`
(lines 91-103): start from the prefix and append the serialized fields one
by one, exactly in source order. The element type `T` is a phantom parameter
of the template instantiation; the body does not use it. -/
def get_pooling2d_fwd_key (T : Type) (p : PoolingSig) : String :=
  let key := POOLING2D_FWD_PREFIX
  let key := key ++ dims_to_string p.src_d
  let key := key ++ dims_to_string p.dst_d
  let key := key ++ int_to_string p.ker_h
  let key := key ++ int_to_string p.ker_w
  let key := key ++ int_to_string p.sy
  let key := key ++ int_to_string p.sx
  let key := key ++ int_to_string p.pad_lh
  let key := key ++ int_to_string p.pad_lw
  let key := key ++ int_to_string p.pad_rh
  let key := key ++ int_to_string p.pad_rw
  let key := key ++ int_to_string p.alg_kind
  key

/-- The cache key built by `Pooling2DFwdFactory<T>::set_pooling2d_fwd`
(lines 117-129): the same append sequence as the get path. -/
def set_pooling2d_fwd_key (T : Type) (p : PoolingSig) : String :=
  let key := POOLING2D_FWD_PREFIX
  let key := key ++ dims_to_string p.src_d
  let key := key ++ dims_to_string p.dst_d
  let key := key ++ int_to_string p.ker_h
  let key := key ++ int_to_string p.ker_w
  let key := key ++ int_to_string p.sy
  let key := key ++ int_to_string p.sx
  let key := key ++ int_to_string p.pad_lh
  let key := key ++ int_to_string p.pad_lw
  let key := key ++ int_to_string p.pad_rh
  let key := key ++ int_to_string p.pad_rw
  let key := key ++ int_to_string p.alg_kind
  key

/-- `Pooling2DFwdFactory<T>::get_pooling2d_fwd` (lines 83-106): build the key,
then `return this->get_op(key)`. The method reads but never writes the
factory, so the state-passing embedding returns the factory alongside the
lookup result. -/
def get_pooling2d_fwd {T : Type} (f : OpFactory T) (p : PoolingSig) :
    Option (Op T) × OpFactory T :=
  (f.get_op (get_pooling2d_fwd_key T p), f)

/-- `Pooling2DFwdFactory<T>::set_pooling2d_fwd` (lines 108-132): build the
key, then `return this->set_op(key, op)`; the updated factory is the result
state. -/
def set_pooling2d_fwd {T : Type} (f : OpFactory T) (p : PoolingSig) (op : Op T) :
    OpFactory T :=
  f.set_op (set_pooling2d_fwd_key T p) op

/-- A factory obtained from a starting state by a sequence of
`set_pooling2d_fwd` calls (the only state-changing operation). -/
def run_sets (T : Type) : OpFactory T → List (PoolingSig × Op T) → OpFactory T
  | f, [] => f
  | f, (p, op) :: rest => run_sets T (set_pooling2d_fwd f p op) rest

/-- Concatenation of a list of strings, used to state the spec-side key
format. -/
def strcat : List String → String
  | [] => ""
  | s :: rest => s ++ strcat rest

/-- The signature fields in the serialization order stated by the spec:
source dims, destination dims, kernel height/width, stride y/x, left
padding h/w, right padding h/w, algorithm kind. -/
def sig_fields (p : PoolingSig) : List Int :=
  p.src_d ++ p.dst_d ++
    [p.ker_h, p.ker_w, p.sy, p.sx, p.pad_lh, p.pad_lw, p.pad_rh, p.pad_rw,
     p.alg_kind]

/-- The key format as the spec describes it: the fixed prefix followed by the
decimal serialization of every field in order, with no delimiters. This
definition follows the spec text and is compared against the source-derived
key functions. -/
def key_spec (p : PoolingSig) : String :=
  "pooling2d_fwd_" ++ strcat ((sig_fields p).map (fun i => toString i))

theorem get_set_key_eq (T : Type) (p : PoolingSig) :
    get_pooling2d_fwd_key T p = set_pooling2d_fwd_key T p := rfl

theorem dims_to_string_eq_strcat (ds : List Int) :
    dims_to_string ds = strcat (ds.map int_to_string) := by
  induction ds with
  | nil => rfl
  | cons d ds ih => simp [dims_to_string, strcat, ih]

theorem strcat_append (l1 l2 : List String) :
    strcat (l1 ++ l2) = strcat l1 ++ strcat l2 := by
  induction l1 with
  | nil => simp [strcat]
  | cons s l1 ih => simp [strcat, ih, String.append_assoc]

theorem str_append_right_cancel {a b c : String} (h : a ++ c = b ++ c) :
    a = b := by
  apply String.ext
  have hd : a.data ++ c.data = b.data ++ c.data := by
    simpa [String.data_append] using congrArg String.data h
  exact List.append_cancel_right hd

/-- The signature of the spec's concrete scenario, with the numeric value of
the algorithm enum left as a parameter (the `mkldnn::algorithm` enum values
are defined outside this fragment). -/
def sig_scn (alg : Int) : PoolingSig :=
  ⟨[1, 3, 8, 8], [1, 3, 4, 4], 2, 2, 2, 2, 0, 0, 0, 0, alg⟩

/-- The scenario signature with strides changed to `sy = 1, sx = 1`. -/
def sig_scn_s1 (alg : Int) : PoolingSig :=
  ⟨[1, 3, 8, 8], [1, 3, 4, 4], 2, 2, 1, 1, 0, 0, 0, 0, alg⟩

theorem key_scn_eq (T : Type) (alg : Int) :
    set_pooling2d_fwd_key T (sig_scn alg) =
      "pooling2d_fwd_1388134422220000" ++ int_to_string alg := rfl

theorem key_scn_s1_eq (T : Type) (alg : Int) :
    get_pooling2d_fwd_key T (sig_scn_s1 alg) =
      "pooling2d_fwd_1388134422110000" ++ int_to_string alg := rfl

theorem key_scn_ne (T : Type) (alg : Int) :
    get_pooling2d_fwd_key T (sig_scn_s1 alg) ≠
      set_pooling2d_fwd_key T (sig_scn alg) := by
  rw [key_scn_eq, key_scn_s1_eq]
  intro h
  have h2 := str_append_right_cancel h
  exact absurd h2 (by decide)

theorem get_after_set_hits (T : Type) (f : OpFactory T)
    (p : PoolingSig) (h : Op T) :
    (get_pooling2d_fwd (set_pooling2d_fwd f p h) p).1 = some h := by
  simp [get_pooling2d_fwd, set_pooling2d_fwd, OpFactory.get_op,
    OpFactory.set_op, get_set_key_eq]

/-- C1: after `set_pooling2d_fwd` with signature `p` and handle `h`, a
`get_pooling2d_fwd` with a structurally equal signature returns that same
handle `h`: the get and set paths derive the same cache key from equal
signatures. -/
theorem get_after_set_returns_handle (T : Type) (f : OpFactory T)
    (p : PoolingSig) (h : Op T) :
    (get_pooling2d_fwd (set_pooling2d_fwd f p h) p).1 = some h :=
  get_after_set_hits T f p h

theorem keys_eq_key_spec (T : Type) (p : PoolingSig) :
    get_pooling2d_fwd_key T p = key_spec p ∧
    set_pooling2d_fwd_key T p = key_spec p := by
  constructor <;>
  · simp only [get_pooling2d_fwd_key, set_pooling2d_fwd_key, key_spec,
      sig_fields, dims_to_string_eq_strcat, List.map_append, strcat_append,
      strcat, List.map_cons, List.map_nil, int_to_string,
      String.append_assoc, String.append_empty]
    rfl

/-- C3: both key functions produce exactly the fixed prefix
`"pooling2d_fwd_"` followed by the decimal serializations of the source
dims, destination dims, kernel height/width, stride y/x, left padding h/w,
right padding h/w and the algorithm kind, in this order, with no delimiters
between fields. -/
theorem key_matches_spec_format (T : Type) (p : PoolingSig) :
    get_pooling2d_fwd_key T p = key_spec p ∧
    set_pooling2d_fwd_key T p = key_spec p :=
  keys_eq_key_spec T p

/-- C5: key derivation is deterministic: structurally equal signatures give
identical key strings, on the get path, on the set path, and across the two
paths; both key functions are pure, so this holds across any two
invocations. -/
theorem key_deterministic (T : Type) (p1 p2 : PoolingSig) (h : p1 = p2) :
    get_pooling2d_fwd_key T p1 = get_pooling2d_fwd_key T p2 ∧
    get_pooling2d_fwd_key T p1 = set_pooling2d_fwd_key T p2 ∧
    set_pooling2d_fwd_key T p1 = set_pooling2d_fwd_key T p2 := by
  subst h
  exact ⟨rfl, get_set_key_eq T p1, rfl⟩

/-- C5 witness: the determinism theorem applied at a concrete signature. -/
theorem key_deterministic_witness :
    get_pooling2d_fwd_key Unit (sig_scn 0) = set_pooling2d_fwd_key Unit (sig_scn 0) :=
  (key_deterministic Unit (sig_scn 0) (sig_scn 0) rfl).2.1

/-- C7: `get_pooling2d_fwd` has no side effects on a cache miss: when the
lookup returns the absent result, the factory state is unchanged (the whole
factory state is the cache table). -/
theorem get_miss_no_side_effects (T : Type) (f : OpFactory T) (p : PoolingSig)
    (h : (get_pooling2d_fwd f p).1 = none) :
    (get_pooling2d_fwd f p).2 = f :=
  rfl

/-- C7 witness: a concrete miss on the empty factory leaves it unchanged. -/
theorem get_miss_no_side_effects_witness :
    (get_pooling2d_fwd (OpFactory.empty Unit) (sig_scn 0)).1 = none ∧
    (get_pooling2d_fwd (OpFactory.empty Unit) (sig_scn 0)).2 = OpFactory.empty Unit :=
  ⟨rfl, get_miss_no_side_effects Unit (OpFactory.empty Unit) (sig_scn 0) rfl⟩

/-- A sequence of `n + 1` repeated `get_pooling2d_fwd` calls with the same
signature and no intervening set, each call running on the state left by the
previous one; the result is the pair produced by the last call. -/
def get_seq {T : Type} (f : OpFactory T) (p : PoolingSig) :
    Nat → Option (Op T) × OpFactory T
  | 0 => get_pooling2d_fwd f p
  | n + 1 => get_pooling2d_fwd (get_seq f p n).2 p

theorem get_seq_state (T : Type) (f : OpFactory T) (p : PoolingSig)
    (n : Nat) : (get_seq f p n).2 = f := by
  induction n with
  | zero => rfl
  | succ n ih => simp [get_seq, ih, get_pooling2d_fwd]

/-- C8: lookup is idempotent: in a sequence of repeated `get_pooling2d_fwd`
calls with the same signature and no intervening `set_pooling2d_fwd`, every
call returns the same result as the first. -/
theorem get_idempotent (T : Type) (f : OpFactory T) (p : PoolingSig)
    (n : Nat) : (get_seq f p n).1 = (get_pooling2d_fwd f p).1 := by
  induction n with
  | zero => rfl
  | succ n _ => simp [get_seq, get_seq_state, get_pooling2d_fwd]

/-- C9: the spec scenario: starting from the empty factory, after a set with
src = [1,3,8,8], dst = [1,3,4,4], kernel 2x2, stride 2,2, zero padding and
any algorithm kind, a get with the identical signature returns the stored
handle, while a get identical except stride 1,1 returns the absent result. -/
theorem scenario_set_get (T : Type) (alg : Int) (H1 : Op T) :
    (get_pooling2d_fwd (set_pooling2d_fwd (OpFactory.empty T) (sig_scn alg) H1)
        (sig_scn alg)).1 = some H1 ∧
    (get_pooling2d_fwd (set_pooling2d_fwd (OpFactory.empty T) (sig_scn alg) H1)
        (sig_scn_s1 alg)).1 = none := by
  constructor
  · exact get_after_set_hits T (OpFactory.empty T) (sig_scn alg) H1
  · simp [get_pooling2d_fwd, set_pooling2d_fwd, OpFactory.get_op,
      OpFactory.set_op, OpFactory.empty, key_scn_ne T alg]

/-- C10: the derived cache key does not depend on the factory's element
type: any two element-type instantiations of the key functions agree on
every signature (the template body never uses `T`), so isolation between
element types comes only from the factories being distinct instances. -/
theorem key_independent_of_element_type (T1 T2 : Type) (p : PoolingSig) :
    get_pooling2d_fwd_key T1 p = get_pooling2d_fwd_key T2 p ∧
    set_pooling2d_fwd_key T1 p = set_pooling2d_fwd_key T2 p :=
  ⟨rfl, rfl⟩

/-- Two structurally different signatures whose serializations collide: the
source dims `[1, 23]` and `[12, 3]` both flatten to the digit string
`"123"`. -/
def sig_collide1 : PoolingSig := ⟨[1, 23], [1], 1, 1, 1, 1, 0, 0, 0, 0, 0⟩

/-- The collision partner of `sig_collide1`. -/
def sig_collide2 : PoolingSig := ⟨[12, 3], [1], 1, 1, 1, 1, 0, 0, 0, 0, 0⟩

theorem int_to_string_single_digit_length (d : Int) (h0 : 0 ≤ d)
    (h9 : d ≤ 9) : (int_to_string d).data.length = 1 := by
  interval_cases d <;> decide

theorem int_to_string_single_digit_inj (a b : Int) (ha0 : 0 ≤ a) (ha9 : a ≤ 9)
    (hb0 : 0 ≤ b) (hb9 : b ≤ 9) (h : int_to_string a = int_to_string b) :
    a = b := by
  interval_cases a <;> interval_cases b <;> revert h <;> decide

theorem strcat_data (l : List String) :
    (strcat l).data = (l.map String.data).flatten := by
  induction l with
  | nil => rfl
  | cons s l ih => simp [strcat, String.data_append, ih]

theorem flatten_singletons_inj {α : Type} :
    ∀ l1 l2 : List (List α), (∀ x ∈ l1, x.length = 1) →
      (∀ x ∈ l2, x.length = 1) → l1.flatten = l2.flatten → l1 = l2 := by
  intro l1
  induction l1 with
  | nil =>
    intro l2 _ h2 hf
    cases l2 with
    | nil => rfl
    | cons b l2 =>
      exfalso
      obtain ⟨y, rfl⟩ := List.length_eq_one.mp (h2 b (List.mem_cons_self b l2))
      simp at hf
  | cons a l1 ih =>
    intro l2 h1 h2 hf
    cases l2 with
    | nil =>
      exfalso
      obtain ⟨x, rfl⟩ := List.length_eq_one.mp (h1 a (List.mem_cons_self a l1))
      simp at hf
    | cons b l2 =>
      obtain ⟨x, rfl⟩ := List.length_eq_one.mp (h1 a (List.mem_cons_self a l1))
      obtain ⟨y, rfl⟩ := List.length_eq_one.mp (h2 b (List.mem_cons_self b l2))
      simp only [List.flatten_cons, List.singleton_append, List.cons.injEq] at hf
      obtain ⟨rfl, hxs⟩ := hf
      have hrest := ih l2 (fun z hz => h1 z (List.mem_cons_of_mem _ hz))
        (fun z hz => h2 z (List.mem_cons_of_mem _ hz)) hxs
      rw [hrest]

theorem map_int_data_inj :
    ∀ l1 l2 : List Int, (∀ d ∈ l1, 0 ≤ d ∧ d ≤ 9) →
      (∀ d ∈ l2, 0 ≤ d ∧ d ≤ 9) →
      l1.map (fun d => (int_to_string d).data) =
        l2.map (fun d => (int_to_string d).data) → l1 = l2 := by
  intro l1
  induction l1 with
  | nil =>
    intro l2 _ _ hm
    cases l2 with
    | nil => rfl
    | cons b l2 => simp at hm
  | cons a l1 ih =>
    intro l2 h1 h2 hm
    cases l2 with
    | nil => simp at hm
    | cons b l2 =>
      simp only [List.map_cons, List.cons.injEq] at hm
      obtain ⟨hhead, htail⟩ := hm
      have hs : int_to_string a = int_to_string b := String.ext hhead
      have ha := h1 a (List.mem_cons_self a l1)
      have hb := h2 b (List.mem_cons_self b l2)
      have hab := int_to_string_single_digit_inj a b ha.1 ha.2 hb.1 hb.2 hs
      have hrest := ih l2 (fun z hz => h1 z (List.mem_cons_of_mem _ hz))
        (fun z hz => h2 z (List.mem_cons_of_mem _ hz)) htail
      rw [hab, hrest]

/-- C2 counterexample: two signatures that differ in their source dims lists
derive the very same cache key, so they map to the same cache entry: after a
set under the first signature, a get under the second returns the stored
handle. -/
theorem key_collision_counterexample :
    sig_collide1 ≠ sig_collide2 ∧
    get_pooling2d_fwd_key Unit sig_collide1 =
      get_pooling2d_fwd_key Unit sig_collide2 ∧
    set_pooling2d_fwd_key Unit sig_collide1 =
      set_pooling2d_fwd_key Unit sig_collide2 ∧
    (get_pooling2d_fwd
        (set_pooling2d_fwd (OpFactory.empty Unit) sig_collide1 ⟨5⟩)
        sig_collide2).1 = some ⟨5⟩ := by
  decide

/-- C2 amended: key derivation is injective on the restricted domain where
the two signatures have source dims lists of equal length and destination
dims lists of equal length and every field is a single decimal digit
(between 0 and 9); outside that domain distinct signatures can collide, as
the delimiter-free concatenation makes e.g. `[1, 23]` and `[12, 3]`
indistinguishable. -/
theorem key_inj_single_digit (T : Type) (p1 p2 : PoolingSig)
    (hsrc : p1.src_d.length = p2.src_d.length)
    (hdst : p1.dst_d.length = p2.dst_d.length)
    (hd1 : ∀ d ∈ sig_fields p1, 0 ≤ d ∧ d ≤ 9)
    (hd2 : ∀ d ∈ sig_fields p2, 0 ≤ d ∧ d ≤ 9)
    (hk : get_pooling2d_fwd_key T p1 = get_pooling2d_fwd_key T p2) :
    p1 = p2 := by
  rw [(keys_eq_key_spec T p1).1, (keys_eq_key_spec T p2).1] at hk
  have hdata := congrArg String.data hk
  simp only [key_spec, String.data_append, strcat_data, List.map_map] at hdata
  have hflat := List.append_cancel_left hdata
  have hmaps := flatten_singletons_inj _ _
    (by
      intro x hx
      obtain ⟨d, hd, rfl⟩ := List.mem_map.mp hx
      exact int_to_string_single_digit_length d (hd1 d hd).1 (hd1 d hd).2)
    (by
      intro x hx
      obtain ⟨d, hd, rfl⟩ := List.mem_map.mp hx
      exact int_to_string_single_digit_length d (hd2 d hd).1 (hd2 d hd).2)
    hflat
  have hfields : sig_fields p1 = sig_fields p2 :=
    map_int_data_inj _ _ hd1 hd2 hmaps
  simp only [sig_fields] at hfields
  have hlen : (p1.src_d ++ p1.dst_d).length = (p2.src_d ++ p2.dst_d).length := by
    simp [List.length_append, hsrc, hdst]
  obtain ⟨hfront, htail⟩ := List.append_inj hfields hlen
  obtain ⟨hsrcEq, hdstEq⟩ := List.append_inj hfront hsrc
  simp only [List.cons.injEq, and_true] at htail
  obtain ⟨h1, h2, h3, h4, h5, h6, h7, h8, h9⟩ := htail
  cases p1
  cases p2
  simp_all

/-- C2 amended witness: the restricted injectivity theorem applied at a
concrete single-digit signature. -/
theorem key_inj_single_digit_witness :
    (∀ d ∈ sig_fields (sig_scn 0), 0 ≤ d ∧ d ≤ 9) ∧ sig_scn 0 = sig_scn 0 :=
  ⟨by decide,
    key_inj_single_digit Unit (sig_scn 0) (sig_scn 0) rfl rfl (by decide)
      (by decide) rfl⟩

theorem run_sets_map_none (T : Type) (p : PoolingSig) :
    ∀ (ops : List (PoolingSig × Op T)) (f : OpFactory T),
      f.map (get_pooling2d_fwd_key T p) = none →
      (∀ q ∈ ops, set_pooling2d_fwd_key T q.1 ≠ get_pooling2d_fwd_key T p) →
      (run_sets T f ops).map (get_pooling2d_fwd_key T p) = none := by
  intro ops
  induction ops with
  | nil => intro f hf _; exact hf
  | cons q ops ih =>
    intro f hf hops
    have hq := hops q (List.mem_cons_self q ops)
    apply ih
    · simp only [set_pooling2d_fwd, OpFactory.set_op]
      rw [if_neg (fun hc => hq hc.symm)]
      exact hf
    · intro r hr
      exact hops r (List.mem_cons_of_mem _ hr)

/-- C4 counterexample: a get whose signature was never set can still return
a handle: after a set under `sig_collide1`, a get under the structurally
different `sig_collide2` (whose key collides) returns the stored handle
instead of the absent result. -/
theorem get_before_set_counterexample :
    sig_collide1 ≠ sig_collide2 ∧
    (get_pooling2d_fwd
        (run_sets Unit (OpFactory.empty Unit) [(sig_collide1, ⟨7⟩)])
        sig_collide2).1 = some ⟨7⟩ := by
  decide

/-- C4 amended: a get returns the absent result (`none`, an ordinary value,
never an error or abort) on any factory built from the empty factory by sets
none of whose derived keys equals the derived key of the queried signature;
equality of signatures is not enough to delimit this, since distinct
signatures can derive the same key. -/
theorem get_unset_key_returns_absent (T : Type)
    (ops : List (PoolingSig × Op T)) (p : PoolingSig)
    (h : ∀ q ∈ ops, set_pooling2d_fwd_key T q.1 ≠ get_pooling2d_fwd_key T p) :
    (get_pooling2d_fwd (run_sets T (OpFactory.empty T) ops) p).1 = none := by
  exact run_sets_map_none T p ops (OpFactory.empty T) rfl h

/-- C4 amended witness: a concrete get on a factory holding one entry under
a different key returns the absent result. -/
theorem get_unset_key_returns_absent_witness :
    (∀ q ∈ [((sig_scn 0 : PoolingSig), (⟨7⟩ : Op Unit))],
      set_pooling2d_fwd_key Unit q.1 ≠ get_pooling2d_fwd_key Unit sig_collide1) ∧
    (get_pooling2d_fwd
        (run_sets Unit (OpFactory.empty Unit) [(sig_scn 0, ⟨7⟩)])
        sig_collide1).1 = none :=
  ⟨by decide,
    get_unset_key_returns_absent Unit [(sig_scn 0, ⟨7⟩)] sig_collide1 (by decide)⟩

/-- C6 counterexample: an explicit set under an already-present key
overwrites the stored handle, so the old key-to-handle entry is no longer in
the table: the cache is not purely grow-only at the level of entries. -/
theorem table_entry_overwritten_counterexample :
    ((set_pooling2d_fwd (OpFactory.empty Unit) (sig_scn 0) ⟨1⟩).map
        (set_pooling2d_fwd_key Unit (sig_scn 0)) = some ⟨1⟩) ∧
    ((set_pooling2d_fwd
        (set_pooling2d_fwd (OpFactory.empty Unit) (sig_scn 0) ⟨1⟩)
        (sig_scn 0) ⟨2⟩).map
        (set_pooling2d_fwd_key Unit (sig_scn 0)) ≠ some ⟨1⟩) := by
  decide

/-- C6 amended: the table never shrinks and nothing is evicted: a get leaves
the table untouched, and a set keeps every key mapped (every key mapped
before is still mapped after) and keeps every entry under a key other than
its own derived key unchanged; the only way an entry can change is being
overwritten by an explicit set under the same derived key. -/
theorem table_entries_preserved (T : Type) (f : OpFactory T) (p : PoolingSig)
    (op h2 : Op T) (k : String) (hk : f.map k = some h2) :
    (get_pooling2d_fwd f p).2.map k = some h2 ∧
    (∃ h3, (set_pooling2d_fwd f p op).map k = some h3) ∧
    (k ≠ set_pooling2d_fwd_key T p →
      (set_pooling2d_fwd f p op).map k = some h2) := by
  refine ⟨hk, ?_, ?_⟩
  · by_cases hc : k = set_pooling2d_fwd_key T p
    · exact ⟨op, by simp [set_pooling2d_fwd, OpFactory.set_op, hc]⟩
    · exact ⟨h2, by simp [set_pooling2d_fwd, OpFactory.set_op, hc, hk]⟩
  · intro hne
    simp [set_pooling2d_fwd, OpFactory.set_op, hne, hk]

/-- C6 amended witness: preservation applied to a concrete table with one
entry, under a set with a different signature whose key differs. -/
theorem table_entries_preserved_witness :
    ((set_pooling2d_fwd (OpFactory.empty Unit) (sig_scn 0) ⟨1⟩).map
        (set_pooling2d_fwd_key Unit (sig_scn 0)) = some ⟨1⟩) ∧
    ((get_pooling2d_fwd (set_pooling2d_fwd (OpFactory.empty Unit) (sig_scn 0) ⟨1⟩)
        (sig_scn_s1 0)).2.map (set_pooling2d_fwd_key Unit (sig_scn 0)) = some ⟨1⟩ ∧
      (∃ h3, (set_pooling2d_fwd
          (set_pooling2d_fwd (OpFactory.empty Unit) (sig_scn 0) ⟨1⟩)
          (sig_scn_s1 0) ⟨2⟩).map
          (set_pooling2d_fwd_key Unit (sig_scn 0)) = some h3) ∧
      (set_pooling2d_fwd_key Unit (sig_scn 0) ≠ set_pooling2d_fwd_key Unit (sig_scn_s1 0) →
        (set_pooling2d_fwd
            (set_pooling2d_fwd (OpFactory.empty Unit) (sig_scn 0) ⟨1⟩)
            (sig_scn_s1 0) ⟨2⟩).map
            (set_pooling2d_fwd_key Unit (sig_scn 0)) = some ⟨1⟩)) :=
  ⟨by decide,
    table_entries_preserved Unit
      (set_pooling2d_fwd (OpFactory.empty Unit) (sig_scn 0) ⟨1⟩)
      (sig_scn_s1 0) ⟨2⟩ ⟨1⟩ (set_pooling2d_fwd_key Unit (sig_scn 0)) (by decide)⟩

end PoolingFwdCache
